import Mathlib

/-!
Focus navigation of the video.js `Menu` component

A shallow embedding of `src/js/menu/menu.js` and `src/js/utils/uwp.js`.

* A child of the menu is a `MenuItem` record holding the properties that
  `Menu.focus` and `Menu.handleBlur` read: `el_`, `selectable`, `className`
  and `isSelected_`.
* The menu is a record of its child sequence, its `menuButton_`, its cursor
  `focusedChild_` and the log of `el_.focus()` calls it has made.
* `IS_UWP` is read from the user agent in the source; here it is a Boolean
  argument of `handleKeyPress`.
-/

namespace Menu

/-! ## utils/uwp.js -/

/-- Directional code table `KeyCodeMapGamePad.left`. -/
def KeyCodeMapGamePad.left : List Int := [37, 214, 205, 140]

/-- Directional code table `KeyCodeMapGamePad.right`. -/
def KeyCodeMapGamePad.right : List Int := [39, 213, 206, 141]

/-- Directional code table `KeyCodeMapGamePad.up`. -/
def KeyCodeMapGamePad.up : List Int := [38, 211, 203, 138]

/-- Directional code table `KeyCodeMapGamePad.down`. -/
def KeyCodeMapGamePad.down : List Int := [40, 212, 204, 139]

/-- Action code table `KeyCodeMapGamePad.accept`. -/
def KeyCodeMapGamePad.accept : List Int := [32, 13, 142, 195]

/-- Action code table `KeyCodeMapGamePad.return` (the name is reserved in Lean). -/
def KeyCodeMapGamePad.return_ : List Int := [8, 143, 196]

/-- Loop of `Array.prototype.indexOf`: position of the first element equal to
`x`, counted from `i`, and `-1` when there is none. -/
def indexOfFrom : List Int → Int → Int → Int
  | [], _, _ => -1
  | y :: ys, x, i => if y = x then i else indexOfFrom ys x (i + 1)

/-- JavaScript `xs.indexOf(x)`. -/
def indexOf (xs : List Int) (x : Int) : Int := indexOfFrom xs x 0

/-! ## menu.js: data -/

/-- A child component of the menu. `el_` identifies the DOM element of the
child, `className` is `none` when the property is undefined. -/
structure MenuItem where
  el_ : Nat
  selectable : Bool
  className : Option String
  isSelected_ : Bool
  deriving DecidableEq, Repr

/-- The menu button that opened the menu: its pressed flag and the identity
of `el().firstChild`. -/
structure MenuButton where
  buttonPressed_ : Bool
  firstChild : Option Nat
  deriving DecidableEq, Repr

/-- State of a `Menu` instance together with the observable calls it made:
`focusCalls` lists, in call order, the children whose `el_.focus()` ran. -/
structure State where
  children : List MenuItem
  menuButton_ : Option MenuButton
  focusedChild_ : Option Int
  focusCalls : List MenuItem
  deriving DecidableEq, Repr

/-- A `keydown` event: its `which` code and the number of `preventDefault()`
calls made on it. -/
structure KeyEvent where
  which : Int
  preventDefaultCalls : Nat
  deriving DecidableEq, Repr

/-! ## menu.js: operations -/

/-- The constructor: `menuButton_` is taken from the options when options are
given, and `focusedChild_` is set to `-1`. -/
def constructor (options : Option (Option MenuButton)) : State :=
  { children := []
    menuButton_ := match options with
      | some o => o
      | none => none
    focusedChild_ := some (-1)
    focusCalls := [] }

/-- Modelled from the spec: `Component.addChild` (component.js is not among the
sources) appends the item to the child sequence. -/
def addChild (m : State) (component : MenuItem) : State :=
  { m with children := m.children ++ [component] }

/-- The method `addItem`: adds the child; the `blur`, `tap` and `click`
subscriptions do not run at registration time. -/
def addItem (m : State) (component : MenuItem) : State :=
  addChild m component

/-- The test `(/vjs-menu-title/).test(s)` on the characters of `s`: the marker
occurs somewhere in `s`. -/
def testTitle : List Char → Bool
  | [] => false
  | c :: cs => "vjs-menu-title".toList.isPrefixOf (c :: cs) || testTitle cs

/-- The test made on `children[0]` for `haveTitle`: its `className` is truthy
and matches `/vjs-menu-title/`. -/
def titleMarked (c : MenuItem) : Bool :=
  match c.className with
  | none => false
  | some s => s != "" && testTitle s.toList

/-- The value `haveTitle` of `focus`: the list is non-empty and its first
entry passes the title test. -/
def haveTitle : List MenuItem → Bool
  | [] => false
  | c :: _ => titleMarked c

/-- The list `children` of `focus` when the `item` handling starts: the
selectable children in order, without a leading title. -/
def focusChildren (m : State) : List MenuItem :=
  let children := m.children.filter (fun c => c.selectable)
  if haveTitle children then children.tail else children

/-- The loop "Find Selected item" started at position `i`: the position of
the first entry with `isSelected_`, and the default `0` when the loop ends
without a break. -/
def findSelected : List MenuItem → Int → Int
  | [], _ => 0
  | c :: cs, i => if c.isSelected_ then i else findSelected cs (i + 1)

/-- The bounds check of `focus` on a list of length `len`. -/
def clampItem (item : Int) (len : Nat) : Int :=
  if item < 0 then 0
  else if item ≥ (len : Int) then (len : Int) - 1
  else item

theorem clampItem_lt (item : Int) (len : Nat) (h : len > 0) :
    (clampItem item len).toNat < len := by
  unfold clampItem
  split_ifs <;> omega

/-- The method `focus(item)`; `item = none` is the call without an argument. -/
def focus (m : State) (item : Option Int) : State :=
  let children := focusChildren m
  if h : children.length > 0 then
    let item₁ : Int := match item with
      | none => findSelected children 0
      | some i => i
    let item₂ := clampItem item₁ children.length
    { m with
      focusedChild_ := some item₂
      focusCalls := m.focusCalls ++
        [children.get ⟨item₂.toNat, clampItem_lt item₁ children.length h⟩] }
  else m

/-- The method `stepForward`. -/
def stepForward (m : State) : State :=
  let stepChild : Int := match m.focusedChild_ with
    | some f => f + 1
    | none => 0
  focus m (some stepChild)

/-- The method `stepBack`. -/
def stepBack (m : State) : State :=
  let stepChild : Int := match m.focusedChild_ with
    | some f => f - 1
    | none => 0
  focus m (some stepChild)

/-- The call `event.preventDefault()`. -/
def KeyEvent.preventDefault (event : KeyEvent) : KeyEvent :=
  { event with preventDefaultCalls := event.preventDefaultCalls + 1 }

/-- The method `handleKeyPress(event)`, with the constant `IS_UWP` as an
argument. Returns the menu and the event after the call. -/
def handleKeyPress (IS_UWP : Bool) (m : State) (event : KeyEvent) : State × KeyEvent :=
  if IS_UWP && indexOf KeyCodeMapGamePad.down event.which != -1 then
    (stepForward m, event.preventDefault)
  else if IS_UWP && indexOf KeyCodeMapGamePad.up event.which != -1 then
    (stepBack m, event.preventDefault)
  else if event.which = 37 || event.which = 40 then
    (stepForward m, event.preventDefault)
  else if event.which = 38 || event.which = 39 then
    (stepBack m, event.preventDefault)
  else
    (m, event)

/-- A `blur` event: its `relatedTarget`, `none` when the event reports
`null`. -/
structure BlurEvent where
  relatedTarget : Option Nat
  deriving DecidableEq, Repr

/-- The constant `relatedTarget` of `handleBlur`:
`event.relatedTarget || document.activeElement`, where `activeElement` is the
value of `document.activeElement` (`none` for `null`). -/
def relatedTarget (event : BlurEvent) (activeElement : Option Nat) : Option Nat :=
  match event.relatedTarget with
  | some t => some t
  | none => activeElement

/-- The method `handleBlur(event)`. The result is the number of
`btn.unpressButton()` calls it makes; the menu itself is not written to. -/
def handleBlur (m : State) (event : BlurEvent) (activeElement : Option Nat) : Nat :=
  let relatedTarget := relatedTarget event activeElement
  if !(m.children.any (fun element => decide (some element.el_ = relatedTarget))) then
    match m.menuButton_ with
    | none => 0
    | some btn =>
      if btn.buttonPressed_ && relatedTarget != btn.firstChild then 1 else 0
  else 0

/-- One call on the menu: `addItem`, `focus` with or without an index,
`stepForward`, `stepBack`, or `handleKeyPress` on an event with the given
code under the given value of `IS_UWP`. -/
inductive Op where
  | addItem (component : MenuItem)
  | focus (item : Option Int)
  | stepForward
  | stepBack
  | handleKeyPress (IS_UWP : Bool) (which : Int)
  deriving DecidableEq, Repr

/-- The menu after one call. -/
def applyOp (m : State) : Op → State
  | Op.addItem component => addItem m component
  | Op.focus item => focus m item
  | Op.stepForward => stepForward m
  | Op.stepBack => stepBack m
  | Op.handleKeyPress flag which =>
    (handleKeyPress flag m { which := which, preventDefaultCalls := 0 }).1

/-- The menu after a sequence of calls, made in list order. -/
def run (ops : List Op) (m : State) : State :=
  ops.foldl applyOp m

/-- The six code tables of `KeyCodeMapGamePad`, in source order. -/
def KeyCodeMapGamePad.tables : List (List Int) :=
  [KeyCodeMapGamePad.left, KeyCodeMapGamePad.right, KeyCodeMapGamePad.up,
    KeyCodeMapGamePad.down, KeyCodeMapGamePad.accept, KeyCodeMapGamePad.return_]

/-! ## Example menus -/

/-- A plain selectable entry with element `n`. -/
def plainItem (n : Nat) : MenuItem :=
  { el_ := n
    selectable := true
    className := some "vjs-menu-item"
    isSelected_ := false }

/-- A selectable entry with element `n` that is the current selection. -/
def selectedItem (n : Nat) : MenuItem :=
  { el_ := n
    selectable := true
    className := some "vjs-menu-item vjs-selected"
    isSelected_ := true }

/-- A title entry with element `n`. -/
def titleItem (n : Nat) (selectable : Bool) : MenuItem :=
  { el_ := n
    selectable := selectable
    className := some "vjs-menu-title"
    isSelected_ := false }

/-- A menu built by the constructor followed by one `addItem` per entry. -/
def menuOf (items : List MenuItem) : State :=
  items.foldl addItem (constructor none)

/-- A pressed menu button whose element has the first child `100`. -/
def pressedButton : MenuButton :=
  { buttonPressed_ := true
    firstChild := some 100 }

/-- A menu with the pressed button, built by the constructor followed by one
`addItem` per entry. -/
def menuWithButton (items : List MenuItem) : State :=
  items.foldl addItem (constructor (some (some pressedButton)))

/-! ## Basic facts -/

theorem indexOfFrom_ne_iff (xs : List Int) (x i : Int) (hi : 0 ≤ i) :
    indexOfFrom xs x i ≠ -1 ↔ x ∈ xs := by
  induction xs generalizing i with
  | nil => simp [indexOfFrom]
  | cons y ys ih =>
    unfold indexOfFrom
    by_cases hy : y = x
    · simp [hy]; omega
    · have hx : ¬ x = y := fun h => hy h.symm
      simp [hy, hx, ih (i + 1) (by omega)]

theorem indexOf_ne_iff (xs : List Int) (x : Int) : indexOf xs x ≠ -1 ↔ x ∈ xs :=
  indexOfFrom_ne_iff xs x 0 (le_refl 0)

theorem addItem_children (m : State) (c : MenuItem) :
    (addItem m c).children = m.children ++ [c] := rfl

theorem addItem_focusedChild (m : State) (c : MenuItem) :
    (addItem m c).focusedChild_ = m.focusedChild_ := rfl

theorem foldl_addItem_focusedChild (items : List MenuItem) (m : State) :
    (items.foldl addItem m).focusedChild_ = m.focusedChild_ := by
  induction items generalizing m with
  | nil => rfl
  | cons c cs ih => simp [List.foldl, ih, addItem_focusedChild]

theorem foldl_addItem_children (items : List MenuItem) (m : State) :
    (items.foldl addItem m).children = m.children ++ items := by
  induction items generalizing m with
  | nil => simp
  | cons c cs ih => simp [List.foldl, ih, addItem_children]

theorem clampItem_eq (item : Int) (len : Nat) (h : len > 0) :
    clampItem item len = max 0 (min item ((len : Int) - 1)) := by
  unfold clampItem
  split_ifs <;> omega

theorem focusChildren_length_pos (m : State) (h : focusChildren m ≠ []) :
    (focusChildren m).length > 0 := List.length_pos.mpr h

/-- What `focus` does on a non-empty filtered list, for a numeric argument. -/
theorem focus_some (m : State) (i : Int) (h : (focusChildren m).length > 0) :
    focus m (some i) =
      { m with
        focusedChild_ := some (clampItem i (focusChildren m).length)
        focusCalls := m.focusCalls ++
          [(focusChildren m).get
            ⟨(clampItem i (focusChildren m).length).toNat,
              clampItem_lt i (focusChildren m).length h⟩] } := by
  unfold focus
  simp only [h, dite_true]

/-- What `focus` does on a non-empty filtered list, without an argument. -/
theorem focus_none (m : State) (h : (focusChildren m).length > 0) :
    focus m none = focus m (some (findSelected (focusChildren m) 0)) := by
  unfold focus
  simp only [h, dite_true]

/-- What `focus` does on an empty filtered list. -/
theorem focus_empty (m : State) (item : Option Int) (h : focusChildren m = []) :
    focus m item = m := by
  unfold focus
  simp [h]

theorem focus_children (m : State) (item : Option Int) :
    (focus m item).children = m.children := by
  by_cases h : (focusChildren m).length > 0
  · cases item with
    | none => rw [focus_none m h, focus_some m _ h]
    | some i => rw [focus_some m i h]
  · rw [focus_empty m item (List.length_eq_zero.mp (by omega))]

theorem focusChildren_congr (m m₁ : State) (h : m₁.children = m.children) :
    focusChildren m₁ = focusChildren m := by
  unfold focusChildren
  rw [h]

theorem focusChildren_focus (m : State) (item : Option Int) :
    focusChildren (focus m item) = focusChildren m :=
  focusChildren_congr m _ (focus_children m item)

theorem focusChildren_sublist (m : State) : List.Sublist (focusChildren m) m.children := by
  unfold focusChildren
  by_cases ht : haveTitle (m.children.filter (fun c => c.selectable)) = true
  · simp only [ht, if_true]
    exact (List.tail_sublist _).trans (List.filter_sublist _)
  · simp only [ht, if_false]
    exact List.filter_sublist _

theorem focus_some_focusedChild (m : State) (i : Int) (h : focusChildren m ≠ []) :
    (focus m (some i)).focusedChild_ =
      some (max 0 (min i (((focusChildren m).length : Int) - 1))) := by
  have hpos := focusChildren_length_pos m h
  rw [focus_some m i hpos, ← clampItem_eq i _ hpos]

theorem focus_some_focusCalls (m : State) (i : Int) (h : focusChildren m ≠ []) :
    ∃ c, (focusChildren m)[(max 0 (min i (((focusChildren m).length : Int) - 1))).toNat]? = some c ∧
      (focus m (some i)).focusCalls = m.focusCalls ++ [c] := by
  have hpos := focusChildren_length_pos m h
  refine ⟨(focusChildren m).get ⟨(clampItem i (focusChildren m).length).toNat,
    clampItem_lt i (focusChildren m).length hpos⟩, ?_, ?_⟩
  · rw [← clampItem_eq i _ hpos]
    exact List.getElem?_eq_getElem _
  · rw [focus_some m i hpos]

theorem findSelected_first (l : List MenuItem) (i : Int) (k : Nat) (c : MenuItem)
    (hk : l[k]? = some c) (hc : c.isSelected_ = true)
    (hlt : ∀ j, j < k → ∀ d, l[j]? = some d → d.isSelected_ = false) :
    findSelected l i = i + k := by
  induction l generalizing i k with
  | nil => simp at hk
  | cons x xs ih =>
    cases k with
    | zero =>
      simp at hk
      subst hk
      simp [findSelected, hc]
    | succ k =>
      have hx : x.isSelected_ = false := hlt 0 (Nat.succ_pos k) x (by simp)
      have hrec := ih (i + 1) k (by simpa using hk)
        (fun j hj d hd => hlt (j + 1) (by omega) d (by simpa using hd))
      simp [findSelected, hx, hrec]
      omega

theorem findSelected_default (l : List MenuItem) (i : Int)
    (h : ∀ c, c ∈ l → c.isSelected_ = false) : findSelected l i = 0 := by
  induction l generalizing i with
  | nil => rfl
  | cons x xs ih =>
    have hx : x.isSelected_ = false := h x (List.mem_cons_self x xs)
    simp [findSelected, hx, ih (i + 1) (fun c hc => h c (List.mem_cons_of_mem x hc))]

/-! ## Claims about `focus` -/

/-- C1: on a menu whose filtered list (selectable children without a leading
title) is non-empty of length `n`, `focus(i)` stores `clamp(i, 0, n-1)` in
`focusedChild_` for every integer `i`: `0` when `i < 0`, `n-1` when `i ≥ n`,
and `i` otherwise. -/
theorem focus_index_clamped (m : State) (i : Int) (h : focusChildren m ≠ []) :
    (focus m (some i)).focusedChild_ =
        some (max 0 (min i (((focusChildren m).length : Int) - 1))) ∧
      (i < 0 → (focus m (some i)).focusedChild_ = some 0) ∧
      (i ≥ ((focusChildren m).length : Int) →
        (focus m (some i)).focusedChild_ = some (((focusChildren m).length : Int) - 1)) ∧
      (0 ≤ i → i < ((focusChildren m).length : Int) →
        (focus m (some i)).focusedChild_ = some i) := by
  have hpos := focusChildren_length_pos m h
  have hf := focus_some_focusedChild m i h
  refine ⟨hf, fun hi => ?_, fun hi => ?_, fun h0 hi => ?_⟩ <;>
    · rw [hf]
      congr 1
      omega

theorem focus_index_clamped_witness :
    focusChildren (menuOf [titleItem 0 true, plainItem 1, plainItem 2]) ≠ [] ∧
      (focus (menuOf [titleItem 0 true, plainItem 1, plainItem 2]) (some 7)).focusedChild_ =
        some 1 :=
  ⟨by decide,
    (focus_index_clamped (menuOf [titleItem 0 true, plainItem 1, plainItem 2]) 7
      (by decide)).2.2.1 (by decide)⟩

/-- C2: on a menu with a non-empty filtered list, `focus(i)` makes exactly one
focus call, on the entry at position `clamp(i, 0, n-1)` of the filtered list;
that entry is a child of the menu and the filtered list keeps the order of the
child sequence. -/
theorem focus_single_receiver (m : State) (i : Int) (h : focusChildren m ≠ []) :
    ∃ c, (focusChildren m)[(max 0 (min i (((focusChildren m).length : Int) - 1))).toNat]? =
          some c ∧
      (focus m (some i)).focusCalls = m.focusCalls ++ [c] ∧
      c ∈ m.children ∧
      List.Sublist (focusChildren m) m.children := by
  obtain ⟨c, hc, hlog⟩ := focus_some_focusCalls m i h
  exact ⟨c, hc, hlog, (focusChildren_sublist m).subset (List.getElem?_mem hc),
    focusChildren_sublist m⟩

theorem focus_single_receiver_witness :
    focusChildren (menuOf [plainItem 1, titleItem 9 false, plainItem 2]) ≠ [] ∧
      ∃ c, (focusChildren (menuOf [plainItem 1, titleItem 9 false, plainItem 2]))[
            (max (0 : Int) (min (-3) (((focusChildren
              (menuOf [plainItem 1, titleItem 9 false, plainItem 2])).length : Int) - 1))).toNat]? =
            some c ∧
        (focus (menuOf [plainItem 1, titleItem 9 false, plainItem 2]) (some (-3))).focusCalls =
          (menuOf [plainItem 1, titleItem 9 false, plainItem 2]).focusCalls ++ [c] ∧
        c ∈ (menuOf [plainItem 1, titleItem 9 false, plainItem 2]).children ∧
        List.Sublist (focusChildren (menuOf [plainItem 1, titleItem 9 false, plainItem 2]))
          (menuOf [plainItem 1, titleItem 9 false, plainItem 2]).children :=
  ⟨by decide,
    focus_single_receiver (menuOf [plainItem 1, titleItem 9 false, plainItem 2]) (-3)
      (by decide)⟩

/-- C3: on a menu with a non-empty filtered list, `focus()` without an index
stores the position of the first filtered entry whose `isSelected_` is true
and focuses that entry, and stores `0` when no filtered entry is selected;
for `[A, B(isSelected), C]` it stores `1` and `B` receives focus. -/
theorem focus_default_selected (m : State) (h : focusChildren m ≠ []) :
    (∀ (k : Nat) (c : MenuItem), (focusChildren m)[k]? = some c → c.isSelected_ = true →
        (∀ j, j < k → ∀ d, (focusChildren m)[j]? = some d → d.isSelected_ = false) →
        (focus m none).focusedChild_ = some (k : Int) ∧
          (focus m none).focusCalls = m.focusCalls ++ [c]) ∧
      ((∀ c, c ∈ focusChildren m → c.isSelected_ = false) →
        (focus m none).focusedChild_ = some 0) ∧
      (focus (menuOf [plainItem 1, selectedItem 2, plainItem 3]) none).focusedChild_ = some 1 ∧
      (focus (menuOf [plainItem 1, selectedItem 2, plainItem 3]) none).focusCalls =
        [selectedItem 2] := by
  have hpos := focusChildren_length_pos m h
  refine ⟨fun k c hk hc hlt => ?_, fun hnone => ?_, by decide, by decide⟩
  · have hfind := findSelected_first (focusChildren m) 0 k c hk hc hlt
    have hklt : k < (focusChildren m).length := (List.getElem?_eq_some.mp hk).1
    have hclamp : max (0 : Int) (min (0 + (k : Int)) (((focusChildren m).length : Int) - 1)) =
        (k : Int) := by omega
    rw [focus_none m hpos, hfind]
    refine ⟨by rw [focus_some_focusedChild m _ h, hclamp], ?_⟩
    obtain ⟨d, hd, hlog⟩ := focus_some_focusCalls m (0 + (k : Int)) h
    rw [hclamp, Int.toNat_ofNat, hk] at hd
    rw [hlog, Option.some.inj hd]
  · rw [focus_none m hpos, findSelected_default _ 0 hnone, focus_some_focusedChild m _ h]
    congr 1
    omega

theorem focus_default_selected_witness :
    focusChildren (menuOf [titleItem 0 true, plainItem 1, plainItem 2, selectedItem 3]) ≠ [] ∧
      (focus (menuOf [titleItem 0 true, plainItem 1, plainItem 2, selectedItem 3])
        none).focusedChild_ = some 2 :=
  ⟨by decide,
    ((focus_default_selected (menuOf [titleItem 0 true, plainItem 1, plainItem 2, selectedItem 3])
      (by decide)).1 2 (selectedItem 3) (by decide) (by decide) (by decide)).1⟩

/-- C4: when the first selectable child has the title marker and a further
selectable child `a` follows it, `focus(0)` stores `0` and focuses `a`, the
first entry of the title-stripped list; the same holds when the leading child
is not selectable and the first selectable child `a` has no title marker, as
in `[Title(not selectable), A, B]`. -/
theorem focus_zero_skips_title (m : State) (t a : MenuItem) (rest : List MenuItem)
    (h : (m.children.filter (fun c => c.selectable) = t :: a :: rest ∧ titleMarked t = true) ∨
      (∃ cs, m.children = t :: cs ∧ t.selectable = false ∧
        cs.filter (fun c => c.selectable) = a :: rest ∧ titleMarked a = false)) :
    focusChildren m = a :: rest ∧
      (focus m (some 0)).focusedChild_ = some 0 ∧
      (focus m (some 0)).focusCalls = m.focusCalls ++ [a] := by
  have hfc : focusChildren m = a :: rest := by
    rcases h with ⟨hsel, ht⟩ | ⟨cs, hch, hts, hsel, ha⟩
    · simp [focusChildren, hsel, haveTitle, ht]
    · simp [focusChildren, hch, hts, hsel, haveTitle, ha]
  have hne : focusChildren m ≠ [] := by simp [hfc]
  refine ⟨hfc, ?_, ?_⟩
  · rw [focus_some_focusedChild m 0 hne]
    congr 1
    have := focusChildren_length_pos m hne
    omega
  · obtain ⟨c, hc, hlog⟩ := focus_some_focusCalls m 0 hne
    have hidx : (max (0 : Int) (min 0 (((focusChildren m).length : Int) - 1))).toNat = 0 := by
      have := focusChildren_length_pos m hne
      omega
    rw [hidx, hfc] at hc
    simp at hc
    rw [hlog, hc]

theorem focus_zero_skips_title_witness :
    ((focus (menuOf [titleItem 0 true, plainItem 1, plainItem 2]) (some 0)).focusedChild_ =
        some 0 ∧
      (focus (menuOf [titleItem 0 true, plainItem 1, plainItem 2]) (some 0)).focusCalls =
        [plainItem 1]) ∧
    ((focus (menuOf [titleItem 0 false, plainItem 1, plainItem 2]) (some 0)).focusedChild_ =
        some 0 ∧
      (focus (menuOf [titleItem 0 false, plainItem 1, plainItem 2]) (some 0)).focusCalls =
        [plainItem 1]) :=
  ⟨(focus_zero_skips_title (menuOf [titleItem 0 true, plainItem 1, plainItem 2])
      (titleItem 0 true) (plainItem 1) [plainItem 2]
      (Or.inl ⟨by decide, by decide⟩)).2,
    (focus_zero_skips_title (menuOf [titleItem 0 false, plainItem 1, plainItem 2])
      (titleItem 0 false) (plainItem 1) [plainItem 2]
      (Or.inr ⟨[plainItem 1, plainItem 2], by decide, by decide, by decide, by decide⟩)).2⟩

/-- C5: when the filtered list is empty, which is the case exactly when there
is no selectable child or the only selectable child is a title, `focus` with
any argument or none leaves `focusedChild_` as it was and makes no focus
call: the menu is unchanged. -/
theorem focus_empty_noop (m : State) (item : Option Int) (h : focusChildren m = []) :
    (focus m item).focusedChild_ = m.focusedChild_ ∧
      (focus m item).focusCalls = m.focusCalls ∧
      focus m item = m ∧
      (focusChildren m = [] ↔
        (m.children.filter (fun c => c.selectable) = [] ∨
          ∃ t, m.children.filter (fun c => c.selectable) = [t] ∧ titleMarked t = true)) := by
  rw [focus_empty m item h]
  refine ⟨rfl, rfl, rfl, ?_⟩
  unfold focusChildren
  cases m.children.filter (fun c => c.selectable) with
  | nil => simp [haveTitle]
  | cons t ts =>
    by_cases ht : titleMarked t = true
    · simp only [haveTitle, ht, if_true, List.tail_cons, List.cons.injEq, false_or,
        reduceCtorEq]
      exact ⟨fun hts => ⟨t, ⟨rfl, hts⟩, ht⟩, fun ⟨_, ⟨_, hts⟩, _⟩ => hts⟩
    · simp only [haveTitle, ht, List.cons.injEq, false_or, reduceCtorEq, false_iff,
        not_exists, not_and]
      simp only [Bool.false_eq_true, if_false, reduceCtorEq, false_iff, not_exists, not_and]
      rintro u ⟨rfl, _⟩
      exact ht

theorem focus_empty_noop_witness :
    focusChildren (menuOf [titleItem 0 true, titleItem 1 false]) = [] ∧
      focus (menuOf [titleItem 0 true, titleItem 1 false]) (some 5) =
        menuOf [titleItem 0 true, titleItem 1 false] :=
  ⟨by decide,
    (focus_empty_noop (menuOf [titleItem 0 true, titleItem 1 false]) (some 5)
      (by decide)).2.2.1⟩

/-! ## Stepping -/

theorem stepForward_eq (m : State) (f : Int) (hf : m.focusedChild_ = some f) :
    stepForward m = focus m (some (f + 1)) := by
  unfold stepForward
  rw [hf]

theorem stepBack_eq (m : State) (f : Int) (hf : m.focusedChild_ = some f) :
    stepBack m = focus m (some (f - 1)) := by
  unfold stepBack
  rw [hf]

theorem focusChildren_stepForward (m : State) :
    focusChildren (stepForward m) = focusChildren m :=
  focusChildren_focus m _

theorem focusChildren_stepBack (m : State) :
    focusChildren (stepBack m) = focusChildren m :=
  focusChildren_focus m _

theorem focusChildren_iterate (step : State → State)
    (hstep : ∀ m, focusChildren (step m) = focusChildren m) (k : Nat) (m : State) :
    focusChildren (step^[k] m) = focusChildren m := by
  induction k with
  | zero => rfl
  | succ k ih => rw [Function.iterate_succ_apply', hstep, ih]

/-- After `k + 1` forward steps from the cursor `-1` the cursor is
`min k (n - 1)`. -/
theorem stepForward_iterate (m : State) (h : focusChildren m ≠ [])
    (hf : m.focusedChild_ = some (-1)) (k : Nat) :
    (stepForward^[k + 1] m).focusedChild_ =
      some (min (k : Int) (((focusChildren m).length : Int) - 1)) := by
  have hpos := focusChildren_length_pos m h
  induction k with
  | zero =>
    rw [Function.iterate_one, stepForward_eq m (-1) hf, focus_some_focusedChild m _ h]
    congr 1
    omega
  | succ k ih =>
    have hfc := focusChildren_iterate stepForward focusChildren_stepForward (k + 1) m
    rw [Function.iterate_succ_apply', stepForward_eq _ _ ih,
      focus_some_focusedChild _ _ (by rw [hfc]; exact h), hfc]
    congr 1
    push_cast
    omega

/-- After `k + 1` backward steps from the cursor `-1` the cursor is `0`. -/
theorem stepBack_iterate (m : State) (h : focusChildren m ≠ [])
    (hf : m.focusedChild_ = some (-1)) (k : Nat) :
    (stepBack^[k + 1] m).focusedChild_ = some 0 := by
  have hpos := focusChildren_length_pos m h
  induction k with
  | zero =>
    rw [Function.iterate_one, stepBack_eq m (-1) hf, focus_some_focusedChild m _ h]
    congr 1
    omega
  | succ k ih =>
    have hfc := focusChildren_iterate stepBack focusChildren_stepBack (k + 1) m
    rw [Function.iterate_succ_apply', stepBack_eq _ _ ih,
      focus_some_focusedChild _ _ (by rw [hfc]; exact h), hfc]
    congr 1
    omega

theorem constructor_focusedChild (options : Option (Option MenuButton)) :
    (constructor options).focusedChild_ = some (-1) := rfl

/-- C6: on a menu with a non-empty filtered list of length `n` and
`focusedChild_ = i`, `0 ≤ i < n`, `stepForward()` stores `min(i+1, n-1)` and
`stepBack()` stores `max(i-1, 0)`; they are the calls `focus(i+1)` and
`focus(i-1)`. -/
theorem step_from_focused (m : State) (i : Int) (h : focusChildren m ≠ [])
    (hf : m.focusedChild_ = some i) (h0 : 0 ≤ i)
    (hn : i < ((focusChildren m).length : Int)) :
    (stepForward m).focusedChild_ =
        some (min (i + 1) (((focusChildren m).length : Int) - 1)) ∧
      (stepBack m).focusedChild_ = some (max (i - 1) 0) ∧
      stepForward m = focus m (some (i + 1)) ∧
      stepBack m = focus m (some (i - 1)) := by
  refine ⟨?_, ?_, stepForward_eq m i hf, stepBack_eq m i hf⟩
  · rw [stepForward_eq m i hf, focus_some_focusedChild m _ h]
    congr 1
    omega
  · rw [stepBack_eq m i hf, focus_some_focusedChild m _ h]
    congr 1
    omega

theorem step_from_focused_witness :
    focusChildren (focus (menuOf [plainItem 1, plainItem 2, plainItem 3]) (some 2)) ≠ [] ∧
      (focus (menuOf [plainItem 1, plainItem 2, plainItem 3]) (some 2)).focusedChild_ =
        some 2 ∧
      (stepForward (focus (menuOf [plainItem 1, plainItem 2, plainItem 3])
        (some 2))).focusedChild_ = some 2 ∧
      (stepBack (focus (menuOf [plainItem 1, plainItem 2, plainItem 3])
        (some 2))).focusedChild_ = some 1 :=
  ⟨by decide, by decide,
    (step_from_focused (focus (menuOf [plainItem 1, plainItem 2, plainItem 3]) (some 2)) 2
      (by decide) (by decide) (by decide) (by decide)).1,
    (step_from_focused (focus (menuOf [plainItem 1, plainItem 2, plainItem 3]) (some 2)) 2
      (by decide) (by decide) (by decide) (by decide)).2.1⟩

/-- C7: on a menu built by the constructor and `addItem` calls, with a non-empty
filtered list of length `n`, `k ≥ 1` consecutive `stepForward()` calls leave
`focusedChild_ = min(k-1, n-1)`: the cursor visits `0, 1, 2, ...` up to `n-1`
and stays there. -/
theorem stepForward_repeated (options : Option (Option MenuButton)) (items : List MenuItem)
    (k : Nat) (h : focusChildren (items.foldl addItem (constructor options)) ≠ [])
    (hk : k ≥ 1) :
    (stepForward^[k] (items.foldl addItem (constructor options))).focusedChild_ =
      some (min ((k : Int) - 1)
        (((focusChildren (items.foldl addItem (constructor options))).length : Int) - 1)) := by
  obtain ⟨j, rfl⟩ : ∃ j, k = j + 1 := ⟨k - 1, by omega⟩
  have hf : (items.foldl addItem (constructor options)).focusedChild_ = some (-1) := by
    rw [foldl_addItem_focusedChild, constructor_focusedChild]
  rw [stepForward_iterate _ h hf j]
  congr 2
  push_cast
  omega

theorem stepForward_repeated_witness :
    focusChildren ([plainItem 1, plainItem 2, plainItem 3].foldl addItem (constructor none)) ≠ [] ∧
      (stepForward^[5] ([plainItem 1, plainItem 2, plainItem 3].foldl addItem
        (constructor none))).focusedChild_ = some 2 :=
  ⟨by decide,
    stepForward_repeated none [plainItem 1, plainItem 2, plainItem 3] 5 (by decide)
      (by decide)⟩

/-- C8: on a menu built by the constructor and `addItem` calls, with a non-empty
filtered list, `k ≥ 1` consecutive `stepBack()` calls leave `focusedChild_ = 0`;
the first `stepBack()` and the first `stepForward()` both land on `0`. -/
theorem stepBack_repeated (options : Option (Option MenuButton)) (items : List MenuItem)
    (k : Nat) (h : focusChildren (items.foldl addItem (constructor options)) ≠ [])
    (hk : k ≥ 1) :
    (stepBack^[k] (items.foldl addItem (constructor options))).focusedChild_ = some 0 ∧
      (stepBack (items.foldl addItem (constructor options))).focusedChild_ = some 0 ∧
      (stepForward (items.foldl addItem (constructor options))).focusedChild_ = some 0 := by
  obtain ⟨j, rfl⟩ : ∃ j, k = j + 1 := ⟨k - 1, by omega⟩
  have hf : (items.foldl addItem (constructor options)).focusedChild_ = some (-1) := by
    rw [foldl_addItem_focusedChild, constructor_focusedChild]
  have hpos := focusChildren_length_pos _ h
  refine ⟨stepBack_iterate _ h hf j, stepBack_iterate _ h hf 0, ?_⟩
  have := stepForward_iterate _ h hf 0
  rw [Function.iterate_one] at this
  rw [this]
  congr 1
  omega

theorem stepBack_repeated_witness :
    focusChildren ([plainItem 1, plainItem 2, plainItem 3].foldl addItem (constructor none)) ≠ [] ∧
      (stepBack^[4] ([plainItem 1, plainItem 2, plainItem 3].foldl addItem
        (constructor none))).focusedChild_ = some 0 :=
  ⟨by decide,
    (stepBack_repeated none [plainItem 1, plainItem 2, plainItem 3] 4 (by decide)
      (by decide)).1⟩

/-! ## Key handling -/

theorem uwp_down_branch (m : State) (event : KeyEvent)
    (h : event.which ∈ KeyCodeMapGamePad.down) :
    handleKeyPress true m event = (stepForward m, event.preventDefault) := by
  have hne := (indexOf_ne_iff KeyCodeMapGamePad.down event.which).mpr h
  unfold handleKeyPress
  simp [hne]

theorem uwp_up_branch (m : State) (event : KeyEvent)
    (h : event.which ∈ KeyCodeMapGamePad.up) :
    handleKeyPress true m event = (stepBack m, event.preventDefault) := by
  have hne := (indexOf_ne_iff KeyCodeMapGamePad.up event.which).mpr h
  have hd : indexOf KeyCodeMapGamePad.down event.which = -1 := by
    by_contra hc
    have hmem := (indexOf_ne_iff KeyCodeMapGamePad.down event.which).mp hc
    simp [KeyCodeMapGamePad.down, KeyCodeMapGamePad.up] at hmem h
    omega
  unfold handleKeyPress
  simp [hne, hd]

/-- The plain-key branch of `handleKeyPress`, reached when the code is in
neither of the tables tested first or `IS_UWP` is false. -/
theorem plain_branch (flag : Bool) (m : State) (event : KeyEvent)
    (h : flag = false ∨
      (event.which ∉ KeyCodeMapGamePad.down ∧ event.which ∉ KeyCodeMapGamePad.up)) :
    handleKeyPress flag m event =
      if event.which = 37 ∨ event.which = 40 then (stepForward m, event.preventDefault)
      else if event.which = 38 ∨ event.which = 39 then (stepBack m, event.preventDefault)
      else (m, event) := by
  have hcond : (flag && indexOf KeyCodeMapGamePad.down event.which != -1) = false ∧
      (flag && indexOf KeyCodeMapGamePad.up event.which != -1) = false := by
    rcases h with hflag | ⟨hd, hu⟩
    · simp [hflag]
    · have h1 : indexOf KeyCodeMapGamePad.down event.which = -1 :=
        not_not.mp (mt (indexOf_ne_iff _ _).mp hd)
      have h2 : indexOf KeyCodeMapGamePad.up event.which = -1 :=
        not_not.mp (mt (indexOf_ne_iff _ _).mp hu)
      simp [h1, h2]
  unfold handleKeyPress
  rw [hcond.1, hcond.2]
  simp

/-- C9, as amended: with `IS_UWP` true, every code of the down table and the
plain left arrow `37` make `handleKeyPress` do one `stepForward()` and one
`preventDefault()`; every code of the up table and the plain right arrow `39`
make it do one `stepBack()` and one `preventDefault()`; the thumbstick, D-pad
and navigation codes of the left and right tables are ignored. -/
theorem handleKeyPress_uwp (m : State) (event : KeyEvent) :
    ((event.which ∈ KeyCodeMapGamePad.down ∨ event.which = 37) →
        handleKeyPress true m event = (stepForward m, event.preventDefault)) ∧
      ((event.which ∈ KeyCodeMapGamePad.up ∨ event.which = 39) →
        handleKeyPress true m event = (stepBack m, event.preventDefault)) ∧
      (((event.which ∈ KeyCodeMapGamePad.left ∨ event.which ∈ KeyCodeMapGamePad.right) ∧
          event.which ≠ 37 ∧ event.which ≠ 39) →
        handleKeyPress true m event = (m, event)) := by
  refine ⟨fun h => ?_, fun h => ?_, fun h => ?_⟩
  · rcases h with h | h
    · exact uwp_down_branch m event h
    · rw [plain_branch true m event
        (Or.inr (by simp [h, KeyCodeMapGamePad.down, KeyCodeMapGamePad.up]))]
      simp [h]
  · rcases h with h | h
    · exact uwp_up_branch m event h
    · rw [plain_branch true m event
        (Or.inr (by simp [h, KeyCodeMapGamePad.down, KeyCodeMapGamePad.up]))]
      simp [h]
  · obtain ⟨hmem, h37, h39⟩ := h
    simp only [KeyCodeMapGamePad.left, KeyCodeMapGamePad.right, List.mem_cons,
      List.mem_singleton, List.not_mem_nil, or_false] at hmem
    have hw : event.which = 214 ∨ event.which = 205 ∨ event.which = 140 ∨
        event.which = 213 ∨ event.which = 206 ∨ event.which = 141 := by omega
    rw [plain_branch true m event
      (Or.inr (by
        simp only [KeyCodeMapGamePad.down, KeyCodeMapGamePad.up, List.mem_cons,
          List.mem_singleton, List.not_mem_nil, or_false]
        omega))]
    have h1 : ¬ (event.which = 37 ∨ event.which = 40) := by omega
    have h2 : ¬ (event.which = 38 ∨ event.which = 39) := by omega
    simp only [h1, h2, if_false]

theorem handleKeyPress_uwp_witness :
    (212 : Int) ∈ KeyCodeMapGamePad.down ∧
      handleKeyPress true (menuOf [plainItem 1, plainItem 2])
          { which := 212, preventDefaultCalls := 0 } =
        (stepForward (menuOf [plainItem 1, plainItem 2]),
          { which := 212, preventDefaultCalls := 1 }) ∧
      (203 : Int) ∈ KeyCodeMapGamePad.up ∧
      handleKeyPress true (menuOf [plainItem 1, plainItem 2])
          { which := 203, preventDefaultCalls := 0 } =
        (stepBack (menuOf [plainItem 1, plainItem 2]),
          { which := 203, preventDefaultCalls := 1 }) ∧
      (141 : Int) ∈ KeyCodeMapGamePad.right ∧
      handleKeyPress true (menuOf [plainItem 1, plainItem 2])
          { which := 141, preventDefaultCalls := 0 } =
        (menuOf [plainItem 1, plainItem 2], { which := 141, preventDefaultCalls := 0 }) :=
  ⟨by decide,
    (handleKeyPress_uwp (menuOf [plainItem 1, plainItem 2])
      { which := 212, preventDefaultCalls := 0 }).1 (Or.inl (by decide)),
    by decide,
    (handleKeyPress_uwp (menuOf [plainItem 1, plainItem 2])
      { which := 203, preventDefaultCalls := 0 }).2.1 (Or.inl (by decide)),
    by decide,
    (handleKeyPress_uwp (menuOf [plainItem 1, plainItem 2])
      { which := 141, preventDefaultCalls := 0 }).2.2 ⟨Or.inr (by decide), by decide, by decide⟩⟩

/-- C9, as stated, fails: with `IS_UWP` true the code `214`
(GamepadLeftThumbstickLeft, in the left table) neither steps forward nor
calls `preventDefault()`, and the code `213` (GamepadLeftThumbstickRight, in
the right table) neither steps back nor calls `preventDefault()`. -/
theorem left_right_pad_codes_ignored_on_uwp :
    (214 : Int) ∈ KeyCodeMapGamePad.left ∧
      (handleKeyPress true (menuOf [plainItem 1, plainItem 2])
          { which := 214, preventDefaultCalls := 0 }).1 ≠
        stepForward (menuOf [plainItem 1, plainItem 2]) ∧
      (handleKeyPress true (menuOf [plainItem 1, plainItem 2])
          { which := 214, preventDefaultCalls := 0 }).2.preventDefaultCalls = 0 ∧
      (213 : Int) ∈ KeyCodeMapGamePad.right ∧
      (handleKeyPress true (focus (menuOf [plainItem 1, plainItem 2]) (some 1))
          { which := 213, preventDefaultCalls := 0 }).1 ≠
        stepBack (focus (menuOf [plainItem 1, plainItem 2]) (some 1)) ∧
      (handleKeyPress true (focus (menuOf [plainItem 1, plainItem 2]) (some 1))
          { which := 213, preventDefaultCalls := 0 }).2.preventDefaultCalls = 0 := by
  decide

/-- C10: for the plain arrow codes the effect of `handleKeyPress` is the same
for both values of `IS_UWP` and in every menu state: `37` and `40` do exactly
one `stepForward()`, `38` and `39` do exactly one `stepBack()`, each with one
`preventDefault()`. -/
theorem handleKeyPress_arrows (flag : Bool) (m : State) (n : Nat) :
    handleKeyPress flag m { which := 37, preventDefaultCalls := n } =
        (stepForward m, { which := 37, preventDefaultCalls := n + 1 }) ∧
      handleKeyPress flag m { which := 40, preventDefaultCalls := n } =
        (stepForward m, { which := 40, preventDefaultCalls := n + 1 }) ∧
      handleKeyPress flag m { which := 38, preventDefaultCalls := n } =
        (stepBack m, { which := 38, preventDefaultCalls := n + 1 }) ∧
      handleKeyPress flag m { which := 39, preventDefaultCalls := n } =
        (stepBack m, { which := 39, preventDefaultCalls := n + 1 }) := by
  cases flag <;>
    simp [handleKeyPress, indexOf, indexOfFrom, KeyCodeMapGamePad.down, KeyCodeMapGamePad.up,
      KeyEvent.preventDefault]

/-- C11: with `IS_UWP` false, every code of the left, right, up and down
tables other than the plain arrows `37`, `38`, `39`, `40` (the thumbstick,
D-pad and navigation codes) leaves the menu and the event as they were:
`focusedChild_` is unchanged, no child is focused and `preventDefault()` is
not called. -/
theorem handleKeyPress_pad_code_without_uwp (m : State) (event : KeyEvent)
    (h : (event.which ∈ KeyCodeMapGamePad.left ∨ event.which ∈ KeyCodeMapGamePad.right ∨
        event.which ∈ KeyCodeMapGamePad.up ∨ event.which ∈ KeyCodeMapGamePad.down) ∧
      event.which ≠ 37 ∧ event.which ≠ 38 ∧ event.which ≠ 39 ∧ event.which ≠ 40) :
    handleKeyPress false m event = (m, event) ∧
      (handleKeyPress false m event).1.focusedChild_ = m.focusedChild_ ∧
      (handleKeyPress false m event).1.focusCalls = m.focusCalls ∧
      (handleKeyPress false m event).2.preventDefaultCalls = event.preventDefaultCalls := by
  obtain ⟨_, h37, h38, h39, h40⟩ := h
  have heq : handleKeyPress false m event = (m, event) := by
    rw [plain_branch false m event (Or.inl rfl)]
    have h1 : ¬ (event.which = 37 ∨ event.which = 40) := by omega
    have h2 : ¬ (event.which = 38 ∨ event.which = 39) := by omega
    simp only [h1, h2, if_false]
  rw [heq]
  exact ⟨rfl, rfl, rfl, rfl⟩

theorem handleKeyPress_pad_code_without_uwp_witness :
    handleKeyPress false (focus (menuOf [plainItem 1, plainItem 2]) (some 1))
        { which := 204, preventDefaultCalls := 0 } =
      (focus (menuOf [plainItem 1, plainItem 2]) (some 1),
        { which := 204, preventDefaultCalls := 0 }) :=
  (handleKeyPress_pad_code_without_uwp (focus (menuOf [plainItem 1, plainItem 2]) (some 1))
    { which := 204, preventDefaultCalls := 0 }
    ⟨Or.inr (Or.inr (Or.inr (by decide))), by decide, by decide, by decide, by decide⟩).1

/-- C12: for both values of `IS_UWP`, a code that is in none of the left,
right, up and down tables leaves the menu and the event as they were; every
code of the accept and return tables (`32`, `13`, `142`, `195`, `8`, `143`,
`196`) is such a code. `handleKeyPress` is a total function, so no error
arises. -/
theorem handleKeyPress_unrecognized (flag : Bool) (m : State) (event : KeyEvent)
    (h : event.which ∉ KeyCodeMapGamePad.left ∧ event.which ∉ KeyCodeMapGamePad.right ∧
      event.which ∉ KeyCodeMapGamePad.up ∧ event.which ∉ KeyCodeMapGamePad.down) :
    handleKeyPress flag m event = (m, event) ∧
      (handleKeyPress flag m event).1.focusedChild_ = m.focusedChild_ ∧
      (handleKeyPress flag m event).1.focusCalls = m.focusCalls ∧
      (handleKeyPress flag m event).2.preventDefaultCalls = event.preventDefaultCalls ∧
      (∀ code, code ∈ KeyCodeMapGamePad.accept ++ KeyCodeMapGamePad.return_ →
        code ∉ KeyCodeMapGamePad.left ∧ code ∉ KeyCodeMapGamePad.right ∧
          code ∉ KeyCodeMapGamePad.up ∧ code ∉ KeyCodeMapGamePad.down) := by
  obtain ⟨hl, hr, hu, hd⟩ := h
  have heq : handleKeyPress flag m event = (m, event) := by
    rw [plain_branch flag m event (Or.inr ⟨hd, hu⟩)]
    have h37 : event.which ≠ 37 := fun hc => hl (by rw [hc]; decide)
    have h39 : event.which ≠ 39 := fun hc => hr (by rw [hc]; decide)
    have h38 : event.which ≠ 38 := fun hc => hu (by rw [hc]; decide)
    have h40 : event.which ≠ 40 := fun hc => hd (by rw [hc]; decide)
    have h1 : ¬ (event.which = 37 ∨ event.which = 40) := by omega
    have h2 : ¬ (event.which = 38 ∨ event.which = 39) := by omega
    simp only [h1, h2, if_false]
  rw [heq]
  refine ⟨rfl, rfl, rfl, rfl, ?_⟩
  decide

theorem handleKeyPress_unrecognized_witness :
    handleKeyPress true (focus (menuOf [plainItem 1, plainItem 2]) (some 1))
        { which := 195, preventDefaultCalls := 0 } =
      (focus (menuOf [plainItem 1, plainItem 2]) (some 1),
        { which := 195, preventDefaultCalls := 0 }) :=
  (handleKeyPress_unrecognized true (focus (menuOf [plainItem 1, plainItem 2]) (some 1))
    { which := 195, preventDefaultCalls := 0 }
    ⟨by decide, by decide, by decide, by decide⟩).1

/-! ## Dismissal on blur -/

theorem handleBlur_eq (m : State) (event : BlurEvent) (activeElement : Option Nat) :
    handleBlur m event activeElement =
      if (∀ c, c ∈ m.children → some c.el_ ≠ relatedTarget event activeElement) ∧
          ∃ btn, m.menuButton_ = some btn ∧ btn.buttonPressed_ = true ∧
            relatedTarget event activeElement ≠ btn.firstChild
      then 1 else 0 := by
  unfold handleBlur
  by_cases hany : m.children.any
      (fun element => decide (some element.el_ = relatedTarget event activeElement)) = true
  · have hex : ¬ ∀ c, c ∈ m.children → some c.el_ ≠ relatedTarget event activeElement := by
      intro hall
      obtain ⟨c, hc, hdec⟩ := List.any_eq_true.mp hany
      exact hall c hc (of_decide_eq_true hdec)
    simp only [hany, Bool.not_true, Bool.false_eq_true, if_false, hex, false_and]
  · have hall : ∀ c, c ∈ m.children → some c.el_ ≠ relatedTarget event activeElement := by
      intro c hc heq
      exact hany (List.any_eq_true.mpr ⟨c, hc, decide_eq_true heq⟩)
    have hfalse : m.children.any
        (fun element => decide (some element.el_ = relatedTarget event activeElement)) =
        false := by simpa using hany
    simp only [hfalse, Bool.not_false, if_true]
    cases hb : m.menuButton_ with
    | none => simp
    | some btn =>
      by_cases hp : btn.buttonPressed_ = true
      · by_cases hr : relatedTarget event activeElement = btn.firstChild
        · simp [hp, hr]
        · have hall2 : ∀ c, c ∈ m.children → ¬ some c.el_ = relatedTarget event activeElement :=
            hall
          simp only [hp, hr, bne_iff_ne, ne_eq, not_false_eq_true, Bool.true_and,
            decide_True, if_true, Option.some.injEq, and_true, exists_eq_left', true_and]
          rw [if_pos hall2]
      · simp [hp]

/-- C13: with `r` the related target of the blur event (the event's own, or
`document.activeElement` when the event reports none), `handleBlur` calls
`unpressButton()` exactly once when no child's element is `r`, the menu has
a `menuButton_`, that button is pressed and `r` is not the first child of the
button's element; it makes no such call when a child's element is `r`, when
there is no button, when the button is not pressed, or when `r` is that first
child. -/
theorem handleBlur_unpress (m : State) (event : BlurEvent) (activeElement : Option Nat) :
    (event.relatedTarget = none → relatedTarget event activeElement = activeElement) ∧
      (∀ t, event.relatedTarget = some t → relatedTarget event activeElement = some t) ∧
      (((∀ c, c ∈ m.children → some c.el_ ≠ relatedTarget event activeElement) ∧
          ∃ btn, m.menuButton_ = some btn ∧ btn.buttonPressed_ = true ∧
            relatedTarget event activeElement ≠ btn.firstChild) →
        handleBlur m event activeElement = 1) ∧
      ((∃ c, c ∈ m.children ∧ some c.el_ = relatedTarget event activeElement) →
        handleBlur m event activeElement = 0) ∧
      (m.menuButton_ = none → handleBlur m event activeElement = 0) ∧
      (∀ btn, m.menuButton_ = some btn → btn.buttonPressed_ = false →
        handleBlur m event activeElement = 0) ∧
      (∀ btn, m.menuButton_ = some btn → relatedTarget event activeElement = btn.firstChild →
        handleBlur m event activeElement = 0) := by
  refine ⟨fun h => by simp [relatedTarget, h], fun t h => by simp [relatedTarget, h],
    fun h => ?_, fun h => ?_, fun h => ?_, fun btn hb hp => ?_, fun btn hb hr => ?_⟩
  · rw [handleBlur_eq, if_pos h]
  · rw [handleBlur_eq, if_neg]
    rintro ⟨hall, _⟩
    obtain ⟨c, hc, heq⟩ := h
    exact hall c hc heq
  · rw [handleBlur_eq, if_neg]
    rintro ⟨_, btn, hb, _⟩
    rw [h] at hb
    cases hb
  · rw [handleBlur_eq, if_neg]
    rintro ⟨_, btn₁, hb₁, hp₁, _⟩
    rw [hb] at hb₁
    cases hb₁
    rw [hp] at hp₁
    cases hp₁
  · rw [handleBlur_eq, if_neg]
    rintro ⟨_, btn₁, hb₁, _, hr₁⟩
    rw [hb] at hb₁
    cases hb₁
    exact hr₁ hr

theorem handleBlur_unpress_witness :
    handleBlur (menuWithButton [plainItem 1, plainItem 2]) { relatedTarget := some 50 } none = 1 ∧
      handleBlur (menuWithButton [plainItem 1, plainItem 2]) { relatedTarget := none }
        (some 2) = 0 :=
  ⟨(handleBlur_unpress (menuWithButton [plainItem 1, plainItem 2]) { relatedTarget := some 50 }
      none).2.2.1 ⟨by decide, pressedButton, by decide, by decide, by decide⟩,
    (handleBlur_unpress (menuWithButton [plainItem 1, plainItem 2]) { relatedTarget := none }
      (some 2)).2.2.2.1 ⟨plainItem 2, by decide, by decide⟩⟩

/-- C14, as amended: when the blur event reports no related target and
`document.activeElement` is `null` as well, `handleBlur` makes no
`unpressButton()` call if there is no button, the button is not pressed, or
its element has no first child; if the button exists, is pressed and its
element has a first child, it makes one call. -/
theorem handleBlur_without_target (m : State) (event : BlurEvent)
    (h : event.relatedTarget = none) :
    (m.menuButton_ = none → handleBlur m event none = 0) ∧
      (∀ btn, m.menuButton_ = some btn →
        (btn.buttonPressed_ = false ∨ btn.firstChild = none) →
        handleBlur m event none = 0) ∧
      (∀ btn, m.menuButton_ = some btn → btn.buttonPressed_ = true → btn.firstChild ≠ none →
        handleBlur m event none = 1) := by
  have hr : relatedTarget event none = none := by simp [relatedTarget, h]
  refine ⟨fun hb => ?_, fun btn hb hor => ?_, fun btn hb hp hfc => ?_⟩
  · rw [handleBlur_eq, if_neg]
    rintro ⟨_, btn, hb₁, _⟩
    rw [hb] at hb₁
    cases hb₁
  · rw [handleBlur_eq, if_neg]
    rintro ⟨_, btn₁, hb₁, hp₁, hr₁⟩
    rw [hb] at hb₁
    cases hb₁
    rcases hor with hp | hfc
    · rw [hp] at hp₁
      cases hp₁
    · rw [hr, hfc] at hr₁
      exact hr₁ rfl
  · rw [handleBlur_eq, if_pos]
    refine ⟨fun c _ hc => ?_, btn, hb, hp, ?_⟩
    · rw [hr] at hc
      cases hc
    · rw [hr]
      exact fun hc => hfc hc.symm

theorem handleBlur_without_target_witness :
    handleBlur (menuOf [plainItem 1]) { relatedTarget := none } none = 0 ∧
      handleBlur (menuWithButton [plainItem 1]) { relatedTarget := none } none = 1 :=
  ⟨(handleBlur_without_target (menuOf [plainItem 1]) { relatedTarget := none } rfl).1
      (by decide),
    (handleBlur_without_target (menuWithButton [plainItem 1]) { relatedTarget := none }
      rfl).2.2 pressedButton (by decide) (by decide) (by decide)⟩

/-- C14, as stated, fails: on a menu whose button is pressed and whose button
element has a first child, a blur event without related target, with
`document.activeElement` being `null`, makes `handleBlur` call
`unpressButton()` once. -/
theorem blur_without_target_unpresses :
    (menuWithButton [plainItem 1]).menuButton_ = some pressedButton ∧
      pressedButton.buttonPressed_ = true ∧
      relatedTarget { relatedTarget := none } none = none ∧
      handleBlur (menuWithButton [plainItem 1]) { relatedTarget := none } none = 1 := by
  decide

/-! ## Which entries can be focused -/

theorem focus_focusCalls_cases (m : State) (item : Option Int) :
    (focus m item = m ∧ focusChildren m = []) ∨
      ∃ c, c ∈ focusChildren m ∧ (focus m item).focusCalls = m.focusCalls ++ [c] := by
  by_cases h : focusChildren m = []
  · exact Or.inl ⟨focus_empty m item h, h⟩
  · right
    have hpos := focusChildren_length_pos m h
    cases item with
    | none =>
      rw [focus_none m hpos]
      obtain ⟨c, hc, hlog⟩ := focus_some_focusCalls m (findSelected (focusChildren m) 0) h
      exact ⟨c, List.getElem?_mem hc, hlog⟩
    | some i =>
      obtain ⟨c, hc, hlog⟩ := focus_some_focusCalls m i h
      exact ⟨c, List.getElem?_mem hc, hlog⟩

theorem focusChildren_not_title (m : State)
    (h : ∀ c, c ∈ (m.children.filter (fun c => c.selectable)).tail → titleMarked c = false)
    (c : MenuItem) (hc : c ∈ focusChildren m) : titleMarked c = false := by
  unfold focusChildren at hc
  cases hsel : m.children.filter (fun c => c.selectable) with
  | nil =>
    rw [hsel] at hc
    simp [haveTitle] at hc
  | cons t ts =>
    rw [hsel] at hc h
    by_cases ht : titleMarked t = true
    · simp only [haveTitle, ht, if_true, List.tail_cons] at hc
      exact h c (by simpa using hc)
    · simp only [haveTitle, ht, Bool.false_eq_true, if_false, List.mem_cons] at hc
      rcases hc with rfl | hc
      · simpa using ht
      · exact h c (by simpa using hc)

/-- C15, as amended: on a menu in which no selectable child other than the
first selectable one carries the title marker, `focus` with any argument or
none never focuses a title-marked entry: it makes no focus call or one call
on an entry without the marker. -/
theorem focus_never_on_leading_title (m : State) (item : Option Int)
    (h : ∀ c, c ∈ (m.children.filter (fun c => c.selectable)).tail → titleMarked c = false) :
    (focus m item).focusCalls = m.focusCalls ∨
      ∃ c, (focus m item).focusCalls = m.focusCalls ++ [c] ∧ titleMarked c = false := by
  rcases focus_focusCalls_cases m item with ⟨heq, _⟩ | ⟨c, hc, hlog⟩
  · left
    rw [heq]
  · exact Or.inr ⟨c, hlog, focusChildren_not_title m h c hc⟩

theorem focus_never_on_leading_title_witness :
    (focus (menuOf [titleItem 0 true, plainItem 1, plainItem 2]) (some (-4))).focusCalls =
        (menuOf [titleItem 0 true, plainItem 1, plainItem 2]).focusCalls ∨
      ∃ c, (focus (menuOf [titleItem 0 true, plainItem 1, plainItem 2]) (some (-4))).focusCalls =
          (menuOf [titleItem 0 true, plainItem 1, plainItem 2]).focusCalls ++ [c] ∧
        titleMarked c = false :=
  focus_never_on_leading_title (menuOf [titleItem 0 true, plainItem 1, plainItem 2]) (some (-4))
    (by decide)

/-- C15, as stated, fails: a selectable title-marked child that is not the
first selectable child is focused by `focus(1)` on `[A, Title]`, and by
`focus(0)` on `[Title, Title]`. -/
theorem focus_reaches_later_title :
    titleMarked (titleItem 2 true) = true ∧
      (focus (menuOf [plainItem 1, titleItem 2 true]) (some 1)).focusCalls =
        [titleItem 2 true] ∧
      (focus (menuOf [titleItem 1 true, titleItem 2 true]) (some 0)).focusCalls =
        [titleItem 2 true] := by
  decide

/-! ## The cursor along sequences of calls -/

theorem focusChildren_addItem_length (m : State) (c : MenuItem) :
    (focusChildren m).length ≤ (focusChildren (addItem m c)).length := by
  unfold focusChildren
  simp only [addItem_children, List.filter_append]
  cases m.children.filter (fun c => c.selectable) with
  | nil => simp [haveTitle]
  | cons t ts =>
    by_cases ht : titleMarked t = true
    · simp [haveTitle, ht]
    · simp [haveTitle, ht]

theorem stepForward_is_focus (m : State) : ∃ item, stepForward m = focus m item :=
  ⟨some (match m.focusedChild_ with
    | some f => f + 1
    | none => 0), rfl⟩

theorem stepBack_is_focus (m : State) : ∃ item, stepBack m = focus m item :=
  ⟨some (match m.focusedChild_ with
    | some f => f - 1
    | none => 0), rfl⟩

theorem applyOp_cases (m : State) (op : Op) :
    (∃ c, applyOp m op = addItem m c) ∨ applyOp m op = m ∨
      ∃ item, applyOp m op = focus m item := by
  cases op with
  | addItem c => exact Or.inl ⟨c, rfl⟩
  | focus item => exact Or.inr (Or.inr ⟨item, rfl⟩)
  | stepForward => exact Or.inr (Or.inr (stepForward_is_focus m))
  | stepBack => exact Or.inr (Or.inr (stepBack_is_focus m))
  | handleKeyPress flag which =>
    right
    simp only [applyOp, handleKeyPress]
    split_ifs
    · exact Or.inr (stepForward_is_focus m)
    · exact Or.inr (stepBack_is_focus m)
    · exact Or.inr (stepForward_is_focus m)
    · exact Or.inr (stepBack_is_focus m)
    · exact Or.inl rfl

/-- On a non-empty filtered list `focus` leaves a cursor that is in range. -/
theorem focus_in_range (m : State) (item : Option Int) (h : focusChildren m ≠ []) :
    ∃ f, (focus m item).focusedChild_ = some f ∧ 0 ≤ f ∧
      f < ((focusChildren (focus m item)).length : Int) := by
  have hpos := focusChildren_length_pos m h
  rw [focusChildren_focus]
  cases item with
  | none =>
    rw [focus_none m hpos]
    exact ⟨_, focus_some_focusedChild m _ h, by omega, by omega⟩
  | some i => exact ⟨_, focus_some_focusedChild m _ h, by omega, by omega⟩

/-- A cursor that is in range stays in range after one call. -/
theorem applyOp_in_range (m : State) (op : Op)
    (h : ∃ f, m.focusedChild_ = some f ∧ 0 ≤ f ∧ f < ((focusChildren m).length : Int)) :
    ∃ f, (applyOp m op).focusedChild_ = some f ∧ 0 ≤ f ∧
      f < ((focusChildren (applyOp m op)).length : Int) := by
  obtain ⟨f, hf, h0, hn⟩ := h
  rcases applyOp_cases m op with ⟨c, hc⟩ | hsame | ⟨item, hitem⟩
  · rw [hc]
    have hlen := focusChildren_addItem_length m c
    exact ⟨f, by rw [addItem_focusedChild, hf], h0, by omega⟩
  · rw [hsame]
    exact ⟨f, hf, h0, hn⟩
  · rw [hitem]
    refine focus_in_range m item ?_
    intro hnil
    rw [hnil] at hn
    simp at hn
    omega

theorem run_in_range (ops : List Op) (m : State)
    (h : ∃ f, m.focusedChild_ = some f ∧ 0 ≤ f ∧ f < ((focusChildren m).length : Int)) :
    ∃ f, (run ops m).focusedChild_ = some f ∧ 0 ≤ f ∧
      f < ((focusChildren (run ops m)).length : Int) := by
  induction ops generalizing m with
  | nil => exact h
  | cons op ops ih => exact ih (applyOp m op) (applyOp_in_range m op h)

/-- A cursor that is `-1` or in range is `-1` or in range after one call. -/
theorem applyOp_initial_or_in_range (m : State) (op : Op)
    (h : ∃ f, m.focusedChild_ = some f ∧
      (f = -1 ∨ (0 ≤ f ∧ f < ((focusChildren m).length : Int)))) :
    ∃ f, (applyOp m op).focusedChild_ = some f ∧
      (f = -1 ∨ (0 ≤ f ∧ f < ((focusChildren (applyOp m op)).length : Int))) := by
  obtain ⟨f, hf, hcase⟩ := h
  rcases hcase with hinit | ⟨h0, hn⟩
  · rcases applyOp_cases m op with ⟨c, hc⟩ | hsame | ⟨item, hitem⟩
    · rw [hc]
      exact ⟨f, by rw [addItem_focusedChild, hf], Or.inl hinit⟩
    · rw [hsame]
      exact ⟨f, hf, Or.inl hinit⟩
    · rw [hitem]
      by_cases hnil : focusChildren m = []
      · rw [focus_empty m item hnil]
        exact ⟨f, hf, Or.inl hinit⟩
      · obtain ⟨g, hg, hg0, hgn⟩ := focus_in_range m item hnil
        exact ⟨g, hg, Or.inr ⟨hg0, hgn⟩⟩
  · obtain ⟨g, hg, hg0, hgn⟩ := applyOp_in_range m op ⟨f, hf, h0, hn⟩
    exact ⟨g, hg, Or.inr ⟨hg0, hgn⟩⟩

theorem run_initial_or_in_range (ops : List Op) (m : State)
    (h : ∃ f, m.focusedChild_ = some f ∧
      (f = -1 ∨ (0 ≤ f ∧ f < ((focusChildren m).length : Int)))) :
    ∃ f, (run ops m).focusedChild_ = some f ∧
      (f = -1 ∨ (0 ≤ f ∧ f < ((focusChildren (run ops m)).length : Int))) := by
  induction ops generalizing m with
  | nil => exact h
  | cons op ops ih => exact ih (applyOp m op) (applyOp_initial_or_in_range m op h)

/-- C16, as amended: in every state reached from the constructor by a finite
sequence of `addItem`, `focus` (with or without index), `stepForward`,
`stepBack` and `handleKeyPress` calls, `focusedChild_` is a number that is
either `-1`, the value the constructor stores, or a valid index into the
current filtered list. -/
theorem focusedChild_initial_or_valid (options : Option (Option MenuButton)) (ops : List Op) :
    ∃ f, (run ops (constructor options)).focusedChild_ = some f ∧
      (f = -1 ∨
        (0 ≤ f ∧ f < ((focusChildren (run ops (constructor options))).length : Int))) :=
  run_initial_or_in_range ops (constructor options) ⟨-1, rfl, Or.inl rfl⟩

/-- C16, as stated, fails: after the constructor and one `addItem` the field
`focusedChild_` holds the number `-1`, which is not an index into the
filtered list of length `1`. -/
theorem fresh_focusedChild_not_an_index :
    (run [Op.addItem (plainItem 1)] (constructor none)).focusedChild_ = some (-1) ∧
      (focusChildren (run [Op.addItem (plainItem 1)] (constructor none))).length = 1 ∧
      ¬ ((0 : Int) ≤ -1 ∧
        (-1 : Int) <
          ((focusChildren (run [Op.addItem (plainItem 1)] (constructor none))).length : Int)) := by
  decide

/-- C17: from a menu whose `focusedChild_` is a valid index into its filtered
list, no sequence of `addItem`, `focus`, `stepForward`, `stepBack` and
`handleKeyPress` calls brings `focusedChild_` back to the value the
constructor stores: it stays a valid index into the current filtered list. -/
theorem focused_never_unset (m : State) (i : Int) (ops : List Op)
    (options : Option (Option MenuButton)) (hf : m.focusedChild_ = some i) (h0 : 0 ≤ i)
    (hn : i < ((focusChildren m).length : Int)) :
    (run ops m).focusedChild_ ≠ (constructor options).focusedChild_ ∧
      (run ops m).focusedChild_ ≠ none ∧
      ∃ f, (run ops m).focusedChild_ = some f ∧ 0 ≤ f ∧
        f < ((focusChildren (run ops m)).length : Int) := by
  obtain ⟨f, hrf, hr0, hrn⟩ := run_in_range ops m ⟨i, hf, h0, hn⟩
  refine ⟨?_, ?_, f, hrf, hr0, hrn⟩
  · rw [hrf, constructor_focusedChild]
    intro hc
    have := Option.some.inj hc
    omega
  · rw [hrf]
    exact Option.some_ne_none f

theorem focused_never_unset_witness :
    (run [Op.stepBack, Op.handleKeyPress true 38, Op.addItem (titleItem 5 true), Op.focus none]
        (focus (menuOf [plainItem 1, plainItem 2]) (some 0))).focusedChild_ ≠
      (constructor none).focusedChild_ :=
  (focused_never_unset (focus (menuOf [plainItem 1, plainItem 2]) (some 0)) 0
    [Op.stepBack, Op.handleKeyPress true 38, Op.addItem (titleItem 5 true), Op.focus none]
    none (by decide) (by decide) (by decide)).1

/-- C18: `addItem(item)` makes the child sequence the previous one with `item`
appended, the previous entries staying in place, leaves `focusedChild_` as
it was and focuses no child. -/
theorem addItem_appends (m : State) (item : MenuItem) :
    (addItem m item).children = m.children ++ [item] ∧
      (addItem m item).children.take m.children.length = m.children ∧
      (addItem m item).children.length = m.children.length + 1 ∧
      (addItem m item).focusedChild_ = m.focusedChild_ ∧
      (addItem m item).focusCalls = m.focusCalls := by
  refine ⟨rfl, ?_, ?_, rfl, rfl⟩
  · rw [addItem_children]
    simp
  · rw [addItem_children]
    simp

/-! ## The code tables -/

/-- Among pairwise disjoint lists at most one contains a given code. -/
theorem filter_mem_length_le_one (L : List (List Int)) (h : L.Pairwise List.Disjoint)
    (code : Int) : (L.filter (fun t => decide (code ∈ t))).length ≤ 1 := by
  induction L with
  | nil => simp
  | cons t ts ih =>
    obtain ⟨hhead, htail⟩ := List.pairwise_cons.mp h
    by_cases hc : code ∈ t
    · have hnil : ts.filter (fun t => decide (code ∈ t)) = [] := by
        rw [List.filter_eq_nil_iff]
        intro u hu hdec
        exact hhead u hu hc (of_decide_eq_true hdec)
      simp [List.filter_cons, hc, hnil]
    · simp only [List.filter_cons, hc, decide_False, Bool.false_eq_true, if_false]
      exact ih htail

/-- When at most one entry passes a test, the first entry that passes is the
same in every order of the list. -/
theorem find?_perm_of_filter_le_one {α : Type} (p : α → Bool) (L L₁ : List α)
    (hperm : List.Perm L₁ L) (h : (L.filter p).length ≤ 1) : L₁.find? p = L.find? p := by
  have hfp : List.Perm (L₁.filter p) (L.filter p) := hperm.filter p
  have heq : L₁.filter p = L.filter p := by
    cases hf : L.filter p with
    | nil =>
      rw [hf] at hfp
      exact hfp.eq_nil
    | cons a as =>
      rw [hf] at h hfp
      have has : as = [] := List.length_eq_zero.mp (by simpa using h)
      rw [has] at hfp ⊢
      exact List.perm_singleton.mp hfp
  rw [← List.filter_head?, ← List.filter_head?, heq]

/-- C19: the six code tables have no code in common and none lists a code
twice; hence every code is in at most one table, and looking for the first
table that contains a code gives the same table in whatever order the tables
are tested. -/
theorem code_tables_disjoint :
    KeyCodeMapGamePad.tables.flatten.Nodup ∧
      KeyCodeMapGamePad.tables.Pairwise List.Disjoint ∧
      (∀ t, t ∈ KeyCodeMapGamePad.tables → t.Nodup) ∧
      (∀ code : Int,
        (KeyCodeMapGamePad.tables.filter (fun t => decide (code ∈ t))).length ≤ 1) ∧
      (∀ (code : Int) (L : List (List Int)), List.Perm L KeyCodeMapGamePad.tables →
        L.find? (fun t => decide (code ∈ t)) =
          KeyCodeMapGamePad.tables.find? (fun t => decide (code ∈ t))) := by
  have hnd : KeyCodeMapGamePad.tables.flatten.Nodup := by decide
  obtain ⟨hall, hpair⟩ := List.nodup_flatten.mp hnd
  exact ⟨hnd, hpair, hall, filter_mem_length_le_one _ hpair,
    fun code L hperm =>
      find?_perm_of_filter_le_one _ _ L hperm (filter_mem_length_le_one _ hpair code)⟩

theorem code_tables_disjoint_witness :
    [KeyCodeMapGamePad.down, KeyCodeMapGamePad.return_, KeyCodeMapGamePad.up,
        KeyCodeMapGamePad.left, KeyCodeMapGamePad.accept, KeyCodeMapGamePad.right].find?
        (fun t => decide ((204 : Int) ∈ t)) =
      KeyCodeMapGamePad.tables.find? (fun t => decide ((204 : Int) ∈ t)) :=
  code_tables_disjoint.2.2.2.2 204
    [KeyCodeMapGamePad.down, KeyCodeMapGamePad.return_, KeyCodeMapGamePad.up,
      KeyCodeMapGamePad.left, KeyCodeMapGamePad.accept, KeyCodeMapGamePad.right]
    (by decide)

/-! ## Round trips -/

theorem stepForward_focusedChild (m : State) (i : Int) (h : focusChildren m ≠ [])
    (hf : m.focusedChild_ = some i) :
    (stepForward m).focusedChild_ =
      some (max 0 (min (i + 1) (((focusChildren m).length : Int) - 1))) := by
  rw [stepForward_eq m i hf, focus_some_focusedChild m _ h]

theorem stepBack_focusedChild (m : State) (i : Int) (h : focusChildren m ≠ [])
    (hf : m.focusedChild_ = some i) :
    (stepBack m).focusedChild_ =
      some (max 0 (min (i - 1) (((focusChildren m).length : Int) - 1))) := by
  rw [stepBack_eq m i hf, focus_some_focusedChild m _ h]

theorem stepBack_stepForward_focusedChild (m : State) (i : Int) (h : focusChildren m ≠ [])
    (hf : m.focusedChild_ = some i) :
    (stepBack (stepForward m)).focusedChild_ =
      some (max 0 (min (max 0 (min (i + 1) (((focusChildren m).length : Int) - 1)) - 1)
        (((focusChildren m).length : Int) - 1))) := by
  have h₁ : focusChildren (stepForward m) ≠ [] := by
    rw [focusChildren_stepForward]
    exact h
  rw [stepBack_focusedChild _ _ h₁ (stepForward_focusedChild m i h hf),
    focusChildren_stepForward]

theorem stepForward_stepBack_focusedChild (m : State) (i : Int) (h : focusChildren m ≠ [])
    (hf : m.focusedChild_ = some i) :
    (stepForward (stepBack m)).focusedChild_ =
      some (max 0 (min (max 0 (min (i - 1) (((focusChildren m).length : Int) - 1)) + 1)
        (((focusChildren m).length : Int) - 1))) := by
  have h₁ : focusChildren (stepBack m) ≠ [] := by
    rw [focusChildren_stepBack]
    exact h
  rw [stepForward_focusedChild _ _ h₁ (stepBack_focusedChild m i h hf),
    focusChildren_stepBack]

theorem focusChildren_ne_nil_of_length (m : State) (h : (0 : Int) < (focusChildren m).length) :
    focusChildren m ≠ [] := by
  intro hnil
  rw [hnil] at h
  simp at h

/-- C20: with `n` the length of the filtered list and `focusedChild_ = i`:
for `0 ≤ i < n-1`, `stepForward()` then `stepBack()` gives `i` again; for
`0 < i ≤ n-1`, `stepBack()` then `stepForward()` gives `i` again; from
`i = n-1` with `n ≥ 2`, `stepForward()` then `stepBack()` ends at `n-2`; from
`i = 0` with `n ≥ 2`, `stepBack()` then `stepForward()` ends at `1`. -/
theorem step_round_trip (m : State) (i : Int) (hf : m.focusedChild_ = some i) :
    (0 ≤ i → i < ((focusChildren m).length : Int) - 1 →
        (stepBack (stepForward m)).focusedChild_ = some i) ∧
      (0 < i → i ≤ ((focusChildren m).length : Int) - 1 →
        (stepForward (stepBack m)).focusedChild_ = some i) ∧
      (((focusChildren m).length : Int) ≥ 2 → i = ((focusChildren m).length : Int) - 1 →
        (stepBack (stepForward m)).focusedChild_ =
          some (((focusChildren m).length : Int) - 2)) ∧
      (((focusChildren m).length : Int) ≥ 2 → i = 0 →
        (stepForward (stepBack m)).focusedChild_ = some 1) := by
  refine ⟨fun h0 hn => ?_, fun h0 hn => ?_, fun h2 hi => ?_, fun h2 hi => ?_⟩
  · rw [stepBack_stepForward_focusedChild m i
      (focusChildren_ne_nil_of_length m (by omega)) hf]
    congr 1
    omega
  · rw [stepForward_stepBack_focusedChild m i
      (focusChildren_ne_nil_of_length m (by omega)) hf]
    congr 1
    omega
  · rw [stepBack_stepForward_focusedChild m i
      (focusChildren_ne_nil_of_length m (by omega)) hf]
    congr 1
    omega
  · rw [stepForward_stepBack_focusedChild m i
      (focusChildren_ne_nil_of_length m (by omega)) hf]
    congr 1
    omega

theorem step_round_trip_witness :
    (focus (menuOf [plainItem 1, plainItem 2, plainItem 3]) (some 1)).focusedChild_ = some 1 ∧
      (stepBack (stepForward
        (focus (menuOf [plainItem 1, plainItem 2, plainItem 3]) (some 1)))).focusedChild_ =
        some 1 ∧
      (stepForward (stepBack
        (focus (menuOf [plainItem 1, plainItem 2, plainItem 3]) (some 1)))).focusedChild_ =
        some 1 ∧
      (stepBack (stepForward
        (focus (menuOf [plainItem 1, plainItem 2, plainItem 3]) (some 2)))).focusedChild_ =
        some 1 ∧
      (stepForward (stepBack
        (focus (menuOf [plainItem 1, plainItem 2, plainItem 3]) (some 0)))).focusedChild_ =
        some 1 :=
  ⟨by decide,
    (step_round_trip (focus (menuOf [plainItem 1, plainItem 2, plainItem 3]) (some 1)) 1
      (by decide)).1 (by decide) (by decide),
    (step_round_trip (focus (menuOf [plainItem 1, plainItem 2, plainItem 3]) (some 1)) 1
      (by decide)).2.1 (by decide) (by decide),
    (step_round_trip (focus (menuOf [plainItem 1, plainItem 2, plainItem 3]) (some 2)) 2
      (by decide)).2.2.1 (by decide) (by decide),
    (step_round_trip (focus (menuOf [plainItem 1, plainItem 2, plainItem 3]) (some 0)) 0
      (by decide)).2.2.2 (by decide) (by decide)⟩

end Menu
